import Mathlib

set_option maxRecDepth 16000

/-!
Shallow embedding of `src/ocr-service/app.py` (FastAPI OCR service).

Strings manipulated by the Python code are modelled as Lean `String` /
`List Char`; Python `float` amounts are modelled as `ℚ` (every amount the
code can produce is a decimal with at most two fraction digits, so this is
exact); the external collaborators (Tesseract via `pytesseract`, PyMuPDF)
are modelled as oracles following the contracts the code relies on:
an image OCR pass is a value of type `Option (String × List Int)`
(recognised text plus integer token confidences, `none` = the engine call
raised), and a PDF document is its list of per-page digital texts together
with an oracle giving the OCR outcome for each rasterised page.

The regular-expression patterns of `extract_structured_fields` are embedded
with a small backtracking engine (`RE` / `mtch` / `search`) that reproduces
CPython `re.search` semantics for the pattern features the code uses:
leftmost starting position wins, alternatives are tried left to right,
greedy quantifiers prefer more repetitions, lazy ones fewer, and the unique
capture group of each pattern returns the consumed substring.  `mtch` is
fuelled; the fuel used by `tryAt` is an over-approximation of the deepest
possible backtracking path (pattern size times input length), so no match
is ever missed.
-/

namespace OCRService

/-- Python whitespace (`str.strip`, `str.split()`, regex `\s`). -/
def pyWs (c : Char) : Bool :=
  c = ' ' || c = '\t' || c = '\n' || c = '\r' || c = Char.ofNat 11 || c = Char.ofNat 12

/-- Regex `\d` (the inputs handled here are ASCII). -/
def isDigitChar (c : Char) : Bool := c.isDigit

/-- Regex `\w` for ASCII inputs: letters, digits and underscore. -/
def isWordChar (c : Char) : Bool := c.isAlphanum || c = '_'

/-- Python `str.upper` restricted to ASCII, which is all the service handles. -/
def pyUpper (c : Char) : Char := if c.isLower then Char.ofNat (c.toNat - 32) else c

/-- Uppercase a whole character list (model of Python `text.upper()`). -/
def pyUpperL (cs : List Char) : List Char := cs.map pyUpper

/-- Python `str.strip()`: drop leading and trailing whitespace. -/
def pyStrip (cs : List Char) : List Char :=
  ((cs.dropWhile pyWs).reverse.dropWhile pyWs).reverse

/-- Python `line.strip()` on a `String`. -/
def pyStripStr (s : String) : String := String.mk (pyStrip s.data)

/-- Python `text.split('\n')`: split on newlines, keeping empty pieces. -/
def splitNl : List Char → List (List Char)
  | [] => [[]]
  | c :: rest =>
    if c = '\n' then [] :: splitNl rest
    else
      match splitNl rest with
      | [] => [[c]]
      | l :: ls => (c :: l) :: ls

/-- Truthiness of `s.strip()` in Python: the string has a non-whitespace char. -/
def hasContent (s : String) : Bool := s.data.any fun c => !(pyWs c)

/-- `len(text.split())` in Python: number of maximal non-whitespace runs. -/
def countTokensAux : List Char → Bool → Nat
  | [], _ => 0
  | c :: cs, inTok =>
    if pyWs c then countTokensAux cs false
    else (if inTok then 0 else 1) + countTokensAux cs true

/-- Whitespace-split token count of a string. -/
def countTokens (s : String) : Nat := countTokensAux s.data false

/-- `lines = [line.strip() for line in text.split('\n') if line.strip()]`. -/
def stripLines (cs : List Char) : List (List Char) :=
  ((splitNl cs).map pyStrip).filter (fun l => l ≠ [])

/-- `"\n\n".join(parts)` (the page-joining separator used by the PDF path). -/
def joinParts : List String → String
  | [] => ""
  | [p] => p
  | p :: ps => p ++ "\n\n" ++ joinParts ps

/-- First-match-wins scan of a rule list: Lean model of the Python
`for pattern in patterns: ... break` loops. -/
def firstSome (f : α → Option β) : List α → Option β
  | [] => none
  | a :: as =>
    match f a with
    | some b => some b
    | none => firstSome f as

/-- Regular expressions over characters, with the features used by
`extract_structured_fields`: literals, one-character classes, concatenation,
prioritised alternation, greedy star, lazy star, and a capture group. -/
inductive RE where
  | lit : List Char → RE
  | cls : (Char → Bool) → RE
  | seq : RE → RE → RE
  | alt : RE → RE → RE
  | star : RE → RE
  | lazy : RE → RE
  | grp : RE → RE

/-- Greedy option `X?`. -/
def RE.opt (r : RE) : RE := RE.alt r (RE.lit [])

/-- Greedy plus `X+`. -/
def RE.plus (r : RE) : RE := RE.seq r (RE.star r)

/-- Lazy plus `X+?`. -/
def RE.lazyPlus (r : RE) : RE := RE.seq r (RE.lazy r)

/-- Size of a pattern, used to bound the matcher fuel. -/
def RE.size : RE → Nat
  | .lit _ => 1
  | .cls _ => 1
  | .seq a b => a.size + b.size + 1
  | .alt a b => a.size + b.size + 1
  | .star a => a.size + 1
  | .lazy a => a.size + 1
  | .grp a => a.size + 1

/-- Merge capture-group results of two sequenced sub-matches (each pattern
here has a single group, so at most one side carries a capture). -/
def mergeC (a b : Option (List Char)) : Option (List Char) :=
  match a with
  | some x => some x
  | none => b

/-- Backtracking matcher.  `mtch f r cs` returns, in CPython preference
order, the list of `(capture group, remaining input)` pairs for matches of
`r` at the start of `cs`.  Greedy stars put longer repetitions first and
the empty repetition last; lazy stars the opposite; alternation keeps
left-to-right order; a star never repeats an iteration that consumed no
input (CPython stops empty-match repetition the same way).  The fuel `f`
only bounds the recursion depth; `tryAt` supplies enough fuel that the
bound is never hit. -/
def mtch : Nat → RE → List Char → List (Option (List Char) × List Char)
  | 0, _, _ => []
  | f + 1, r, cs =>
    match r with
    | .lit s => if s.isPrefixOf cs then [(none, cs.drop s.length)] else []
    | .cls p =>
      match cs with
      | [] => []
      | c :: cs' => if p c then [(none, cs')] else []
    | .seq a b =>
      (mtch f a cs).flatMap fun pr =>
        (mtch f b pr.2).map fun qr => (mergeC pr.1 qr.1, qr.2)
    | .alt a b => mtch f a cs ++ mtch f b cs
    | .star a =>
      ((mtch f a cs).flatMap fun pr =>
        if pr.2.length < cs.length then
          (mtch f (.star a) pr.2).map fun qr => (mergeC pr.1 qr.1, qr.2)
        else []) ++ [(none, cs)]
    | .lazy a =>
      (none, cs) :: ((mtch f a cs).flatMap fun pr =>
        if pr.2.length < cs.length then
          (mtch f (.lazy a) pr.2).map fun qr => (mergeC pr.1 qr.1, qr.2)
        else [])
    | .grp a =>
      (mtch f a cs).map fun pr => (some (cs.take (cs.length - pr.2.length)), pr.2)

/-- Try to match `r` at the start of `cs` (with ample fuel); return the
capture group of the preferred match, the whole match if there is no group. -/
def tryAt (r : RE) (cs : List Char) : Option (List Char) :=
  (mtch ((r.size + 1) * (cs.length + 2)) r cs).head?.map fun pr => pr.1.getD []

/-- `re.search`: try successive start positions left to right, first
position admitting a match wins. -/
def search (r : RE) : List Char → Option (List Char)
  | [] => tryAt r []
  | c :: cs =>
    match tryAt r (c :: cs) with
    | some cap => some cap
    | none => search r cs

/-- Search that respects a `^` anchor: anchored patterns only match at the
start of the string. -/
def searchA : Bool × RE → List Char → Option (List Char)
  | (true, r), cs => tryAt r cs
  | (false, r), cs => search r cs

/-! ## The regex rule tables of `extract_structured_fields` (app.py lines 110-169) -/

/-- Literal pattern piece. -/
def reStr (s : String) : RE := RE.lit s.data

/-- `\s*`. -/
def wsStar : RE := RE.star (RE.cls pyWs)

/-- `\s+`. -/
def wsPlus : RE := RE.plus (RE.cls pyWs)

/-- `[:\s]*`. -/
def colonWsStar : RE := RE.star (RE.cls (fun c => c = ':' || pyWs c))

/-- `[:\s#]*`. -/
def invSepStar : RE := RE.star (RE.cls (fun c => c = ':' || c = '#' || pyWs c))

/-- `\d`. -/
def reDigit : RE := RE.cls isDigitChar

/-- `\d+(?:,\d{3})*(?:\.\d{2})?` — digit groups with optional thousands
commas and optional two-decimal cents. -/
def amountRE : RE :=
  RE.seq (RE.plus reDigit)
    (RE.seq (RE.star (RE.seq (RE.lit [',']) (RE.seq reDigit (RE.seq reDigit reDigit))))
      (RE.opt (RE.seq (RE.lit ['.']) (RE.seq reDigit reDigit))))

/-- `KEYWORD[:\s]*\$?(amount)`. -/
def keywordAmountRE (kw : String) : RE :=
  RE.seq (reStr kw) (RE.seq colonWsStar (RE.seq (RE.opt (reStr "$")) (RE.grp amountRE)))

/-- The eight `total_patterns`, in source order (app.py lines 110-119). -/
def total_patterns : List RE :=
  [ keywordAmountRE "TOTAL",
    keywordAmountRE "AMOUNT",
    keywordAmountRE "SUM",
    keywordAmountRE "BALANCE",
    RE.seq (reStr "USD") (RE.seq wsStar (RE.grp amountRE)),
    RE.seq (RE.opt (reStr "$")) (RE.seq (RE.grp amountRE) (RE.seq wsStar (reStr "USD"))),
    RE.seq (reStr "GRAND") (RE.seq wsStar (RE.seq (reStr "TOTAL")
      (RE.seq colonWsStar (RE.seq (RE.opt (reStr "$")) (RE.grp amountRE))))),
    keywordAmountRE "SUBTOTAL" ]

/-- `\d{1,2}` (greedy: two digits preferred). -/
def d12 : RE := RE.alt (RE.seq reDigit reDigit) reDigit

/-- `\d{2,4}` (greedy: four digits preferred, then three, then two). -/
def d24 : RE :=
  RE.alt (RE.seq reDigit (RE.seq reDigit (RE.seq reDigit reDigit)))
    (RE.alt (RE.seq reDigit (RE.seq reDigit reDigit)) (RE.seq reDigit reDigit))

/-- The class of a slash or a dash (the date separator class). -/
def slashDash : RE := RE.cls (fun c => c = '/' || c = '-')

/-- `(?:JAN|FEB|MAR|APR|MAY|JUN|JUL|AUG|SEP|OCT|NOV|DEC)`. -/
def monthRE : RE :=
  [ "FEB", "MAR", "APR", "MAY", "JUN", "JUL", "AUG", "SEP", "OCT", "NOV",
    "DEC" ].foldl (fun r m => RE.alt r (reStr m)) (reStr "JAN")

/-- The four `date_patterns`, in source order (app.py lines 133-138). -/
def date_patterns : List RE :=
  [ RE.grp (RE.seq d12 (RE.seq slashDash (RE.seq d12 (RE.seq slashDash d24)))),
    RE.grp (RE.seq (RE.seq reDigit (RE.seq reDigit (RE.seq reDigit reDigit)))
      (RE.seq slashDash (RE.seq d12 (RE.seq slashDash d12)))),
    RE.grp (RE.seq d12 (RE.seq wsPlus (RE.seq monthRE (RE.seq wsPlus d24)))),
    RE.grp (RE.seq monthRE (RE.seq wsPlus (RE.seq d12
      (RE.seq (RE.opt (reStr ",")) (RE.seq wsPlus d24))))) ]

/-- The invoice token capture: `\w+`, then an optional dash or slash,
then `\w*` — so at most one internal separator is accepted. -/
def tokenRE : RE :=
  RE.grp (RE.seq (RE.plus (RE.cls isWordChar))
    (RE.seq (RE.opt (RE.cls (fun c => c = '-' || c = '/'))) (RE.star (RE.cls isWordChar))))

/-- The six `invoice_patterns`, in source order (app.py lines 147-154). -/
def invoice_patterns : List RE :=
  [ RE.seq (reStr "INVOICE") (RE.seq invSepStar tokenRE),
    RE.seq (reStr "BILL") (RE.seq invSepStar tokenRE),
    RE.seq (reStr "RECEIPT") (RE.seq invSepStar tokenRE),
    RE.seq (reStr "ORDER") (RE.seq invSepStar tokenRE),
    RE.seq (reStr "REF") (RE.seq (RE.opt (reStr "ERENCE")) (RE.seq invSepStar tokenRE)),
    RE.seq (reStr "ACC") (RE.seq (RE.opt (reStr "OUNT")) (RE.seq invSepStar tokenRE)) ]

/-- `(?:INC|LLC|CORP|CORPORATION|CO|COMPANY|LTD|LIMITED)`. -/
def corpRE : RE :=
  [ "LLC", "CORP", "CORPORATION", "CO", "COMPANY", "LTD",
    "LIMITED" ].foldl (fun r m => RE.alt r (reStr m)) (reStr "INC")

/-- `.` (any character but a newline). -/
def anyChar : RE := RE.cls (fun c => c ≠ '\n')

/-- The five `vendor_patterns` with their `^` anchoring, in source order
(app.py lines 163-169); the first uses a lazy `(.+?)`. -/
def vendor_patterns : List (Bool × RE) :=
  [ (true, RE.seq (RE.grp (RE.lazyPlus anyChar)) (RE.seq wsPlus corpRE)),
    (false, RE.seq (reStr "FROM:") (RE.seq wsStar (RE.grp (RE.plus anyChar)))),
    (false, RE.seq (reStr "VENDOR:") (RE.seq wsStar (RE.grp (RE.plus anyChar)))),
    (false, RE.seq (reStr "SUPPLIER:") (RE.seq wsStar (RE.grp (RE.plus anyChar)))),
    (false, RE.seq (reStr "MERCHANT:") (RE.seq wsStar (RE.grp (RE.plus anyChar)))) ]

/-! ## `extract_structured_fields` (app.py lines 93-193) -/

/-- `ExtractedFields` (app.py lines 36-42); `total` is a `float` in the
source, modelled exactly as `ℚ`. -/
structure ExtractedFields where
  total : Option ℚ := none
  title : Option String := none
  date : Option String := none
  invoice_number : Option String := none
  vendor : Option String := none
deriving DecidableEq

/-- Value of a digit string. -/
def digitsToNat (cs : List Char) : Nat := cs.foldl (fun n c => 10 * n + (c.toNat - 48)) 0

/-- `float(match.group(1).replace(',', ''))` restricted to the strings the
amount capture can produce: digits with an optional two-digit decimal part.
`none` models a `ValueError` (the code then falls through to the next
pattern). -/
def parseAmount (cs0 : List Char) : Option ℚ :=
  let cs := cs0.filter (fun c => c ≠ ',')
  let ip := cs.takeWhile (fun c => c ≠ '.')
  let fp := cs.dropWhile (fun c => c ≠ '.')
  if ip.isEmpty || !ip.all isDigitChar then none
  else
    match fp with
    | [] => some (mkRat (digitsToNat ip) 1)
    | '.' :: ds =>
      if ds.isEmpty || !ds.all isDigitChar then none
      else some (mkRat (digitsToNat ip * 10 ^ ds.length + digitsToNat ds) (10 ^ ds.length))
    | _ => none

/-- The `total` loop (app.py lines 121-130): first pattern whose leftmost
match parses as a number wins. -/
def extractTotal (ucs : List Char) : Option ℚ :=
  firstSome (fun p => (search p ucs).bind parseAmount) total_patterns

/-- The `date` loop (app.py lines 140-144): first pattern with a match
wins, the capture is stored as matched (in the uppercased text). -/
def extractDate (ucs : List Char) : Option String :=
  (firstSome (fun p => search p ucs) date_patterns).map String.mk

/-- The `invoice_number` loop (app.py lines 156-160): first pattern whose
capture is longer than two characters wins. -/
def extractInvoice (ucs : List Char) : Option String :=
  firstSome
    (fun p => (search p ucs).bind fun cap =>
      if 2 < cap.length then some (String.mk cap) else none)
    invoice_patterns

/-- The vendor rule applied to one (already stripped, uppercased) line
(app.py lines 174-178): first pattern whose stripped capture is longer
than two characters wins. -/
def vendorFromLine (lineU : List Char) : Option String :=
  firstSome
    (fun p => (searchA p lineU).bind fun cap =>
      if 2 < (pyStrip cap).length then some (String.mk (pyStrip cap)) else none)
    vendor_patterns

/-- The vendor loop (app.py lines 172-180): scan the first five non-empty
stripped lines, uppercasing each; first line yielding a vendor wins. -/
def extractVendor (cs : List Char) : Option String :=
  firstSome (fun line => vendorFromLine (pyUpperL line)) ((stripLines cs).take 5)

/-- Python substring test `pat in cs`. -/
def isSubL (pat : List Char) : List Char → Bool
  | [] => pat.isEmpty
  | c :: cs => pat.isPrefixOf (c :: cs) || isSubL pat cs

/-- `any(keyword in line for keyword in [...])` (app.py lines 185, 190). -/
def containsTitleKeyword (lineU : List Char) : Bool :=
  [ "INVOICE", "BILL", "RECEIPT", "STATEMENT" ].any fun k => isSubL k.data lineU

/-- The title rule (app.py lines 183-191): the first non-empty line if it
contains a document-type keyword, else the second if it does. -/
def extractTitle (cs : List Char) : Option String :=
  match stripLines cs with
  | [] => none
  | l0 :: rest =>
    if containsTitleKeyword (pyUpperL l0) then some (String.mk (pyStrip l0))
    else
      match rest with
      | [] => none
      | l1 :: _ =>
        if containsTitleKeyword (pyUpperL l1) then some (String.mk (pyStrip l1)) else none

/-- `extract_structured_fields` (app.py lines 93-193): document-wide rules
run over the uppercased text, the vendor and title rules over the stripped
lines of the original text (uppercased per use). -/
def extract_structured_fields (text : String) : ExtractedFields :=
  let ucs := pyUpperL text.data
  { total := extractTotal ucs
    date := extractDate ucs
    invoice_number := extractInvoice ucs
    vendor := extractVendor text.data
    title := extractTitle text.data }

/-! ## Image extraction pipeline (app.py lines 205-244)

The Tesseract calls are modelled by their combined outcome for the image:
`some (text, confs)` is the recognised text plus the integer token
confidences of `image_to_data`, `none` models the engine raising (the
Python code then raises HTTP 500).  Filesystem-only metadata entries
(`file_size`, `image_format`, `image_size`) are not modelled. -/

/-- Mean of the strictly positive confidences, `0.0` when there are none
(app.py lines 226-227). -/
def avgConfidence (confs : List Int) : ℚ :=
  let confidences := confs.filter (fun c => 0 < c)
  if confidences.isEmpty then 0 else (confidences.sum : ℚ) / (confidences.length : ℚ)

/-- Metadata dict built by `extract_text_from_image` (app.py lines 232-239). -/
structure ImageMeta where
  total_lines : Nat
  word_count : Nat
  detected_lines : List String
deriving DecidableEq

/-- `extract_text_from_image` (app.py lines 205-244). -/
def extract_text_from_image (engine : Option (String × List Int)) :
    Option (String × ℚ × ImageMeta) :=
  engine.map fun out =>
    let text := out.1
    let lines := (stripLines text.data).map String.mk
    (text, avgConfidence out.2,
      { total_lines := lines.length
        word_count := countTokens text
        detected_lines := lines.take 10 })

/-! ## PDF extraction pipeline (app.py lines 247-317)

A document is its list of per-page digital texts (the PyMuPDF contract:
`len(doc)` pages, `page.get_text()` per page); `ocr i` is the OCR outcome
for the rasterised page `i`.  `doc.close()` and the temporary page files
are modelled by the release log of the fallback loop. -/

/-- Outcome of the OCR fallback loop (app.py lines 280-294): the non-empty
page texts appended to `text_parts`, the words added to `total_words`, the
pages whose temporary image was released (the `finally` block), and the
page whose OCR pass raised, if any — the `try` has no `except`, so such an
exception propagates after the `finally` cleanup and ends the loop. -/
structure FallbackResult where
  parts : List String
  words : Nat
  released : List Nat
  aborted : Option Nat
deriving DecidableEq

/-- The OCR fallback loop over the given page indices. -/
def ocrFallback (ocr : Nat → Option (String × List Int)) : List Nat → FallbackResult
  | [] => ⟨[], 0, [], none⟩
  | i :: rest =>
    match extract_text_from_image (ocr i) with
    | none => ⟨[], 0, [i], some i⟩
    | some res =>
      let r := ocrFallback ocr rest
      if hasContent res.1 then
        ⟨res.1 :: r.parts, countTokens res.1 + r.words, i :: r.released, r.aborted⟩
      else ⟨r.parts, r.words, i :: r.released, r.aborted⟩

/-- Metadata dict built by `extract_text_from_pdf` (app.py lines 304-312).
It has no `word_count` entry (the image metadata does). -/
structure PdfMeta where
  total_pages : Nat
  total_words : Nat
  has_text : Bool
  extracted_lines : Nat
  used_ocr : Bool
  detected_lines : List String
deriving DecidableEq

/-- Build the PDF metadata dict from the final text. -/
def mkPdfMeta (nPages words : Nat) (full : String) (usedOcr : Bool) : PdfMeta :=
  let lines := (stripLines full.data).map String.mk
  { total_pages := nPages
    total_words := words
    has_text := hasContent full
    extracted_lines := lines.length
    used_ocr := usedOcr
    detected_lines := lines.take 10 }

/-- `extract_text_from_pdf` (app.py lines 247-317).  `pages` is the
per-page digital text of the document; `none` models the HTTP 500 raised
when a fallback OCR pass raises. -/
def extract_text_from_pdf (ocr : Nat → Option (String × List Int))
    (pages : List String) : Option (String × ℚ × PdfMeta) :=
  let digital := pages.filter hasContent
  let dWords := (digital.map countTokens).sum
  let full0 := joinParts digital
  if hasContent full0 then
    some (full0, 1, mkPdfMeta pages.length dWords full0 false)
  else
    let fb := ocrFallback ocr (List.range (min pages.length 5))
    match fb.aborted with
    | some _ => none
    | none =>
      let full := joinParts (digital ++ fb.parts)
      some (full, 4/5, mkPdfMeta pages.length (dWords + fb.words) full true)

/-! ## The `POST /ocr` handler `extract_text` (app.py lines 337-427)

Request-scoped side effects are logged as events; external identity data
(filename, uuid, wall-clock time) is not modelled.  The declared size hint
is `file.size` (possibly absent), the actual size is the byte length of the
payload once read.  HTTP errors are the status codes the handler raises. -/

/-- Side effects of the handler, in the order they can occur. -/
inductive Ev where
  | createTemp
  | readPayload
  | writeTemp
  | engineCall
deriving DecidableEq

/-- `ALLOWED_FILE_TYPES` (app.py lines 30-33). -/
def ALLOWED_FILE_TYPES : List String :=
  ["image/jpeg", "image/jpg", "image/png", "image/bmp", "image/tiff", "application/pdf"]

/-- The upload as the handler sees it. -/
structure Upload where
  contentType : String
  declaredSize : Option Nat
  contentSize : Nat
deriving DecidableEq

/-- View of the per-path metadata dict as read by `processing_metadata.get`
in the response assembly (app.py lines 402-405): a key missing from the
dict reads as `None`. -/
structure ProcMetaView where
  total_pages : Option Nat
  word_count : Option Nat
  detected_lines : Option (List String)
deriving DecidableEq

/-- `get` on the PDF metadata dict: it has `total_pages` and
`detected_lines` keys but no `word_count` key. -/
def PdfMeta.view (m : PdfMeta) : ProcMetaView :=
  ⟨some m.total_pages, none, some m.detected_lines⟩

/-- `get` on the image metadata dict: it has `word_count` and
`detected_lines` keys but no `total_pages` key. -/
def ImageMeta.view (m : ImageMeta) : ProcMetaView :=
  ⟨none, some m.word_count, some m.detected_lines⟩

/-- `OCRMetadata` response model (app.py lines 44-54), restricted to the
fields the model tracks. -/
structure OCRMetadata where
  content_type : String
  file_size : Nat
  total_pages : Option Nat
  confidence : ℚ
  word_count : Option Nat
  detected_lines : Option (List String)
deriving DecidableEq

/-- `OCRResponse` (app.py lines 56-61). -/
structure OCRResponse where
  success : Bool := true
  extracted_text : String
  parsed_fields : ExtractedFields
  metadata : OCRMetadata
deriving DecidableEq

/-- `extract_text`, the `POST /ocr` handler (app.py lines 337-427):
validation (declared size, MIME type), temp-file creation, payload read,
post-read size validation, temp write, then dispatch on the content type,
field extraction and response assembly.  The error value is the HTTP
status raised. -/
def extract_text (maxSize : Nat) (u : Upload) (pages : List String)
    (ocr : Nat → Option (String × List Int)) (img : Option (String × List Int)) :
    List Ev × Except Nat OCRResponse :=
  if u.declaredSize.getD 0 > maxSize then ([], .error 413)
  else if u.contentType ∉ ALLOWED_FILE_TYPES then ([], .error 400)
  else if u.contentSize > maxSize then
    ([.createTemp, .readPayload], .error 413)
  else
    let evs := [Ev.createTemp, Ev.readPayload, Ev.writeTemp, Ev.engineCall]
    let result : Option (String × ℚ × ProcMetaView) :=
      if u.contentType = "application/pdf" then
        (extract_text_from_pdf ocr pages).map fun r => (r.1, r.2.1, r.2.2.view)
      else
        (extract_text_from_image img).map fun r => (r.1, r.2.1, r.2.2.view)
    match result with
    | none => (evs, .error 500)
    | some r =>
      (evs, .ok
        { success := true
          extracted_text := r.1
          parsed_fields := extract_structured_fields r.1
          metadata :=
            { content_type := u.contentType
              file_size := u.contentSize
              total_pages := r.2.2.total_pages
              confidence := r.2.1
              word_count := r.2.2.word_count
              detected_lines := r.2.2.detected_lines } })

/-! ## Helper lemmas -/

theorem data_append (a b : String) : (a ++ b).data = a.data ++ b.data := by
  cases a; cases b; rfl

theorem hasContent_append (a b : String) :
    hasContent (a ++ b) = (hasContent a || hasContent b) := by
  simp [hasContent, data_append]

theorem hasContent_joinParts (l : List String) :
    hasContent (joinParts l) = l.any hasContent := by
  induction l with
  | nil => rfl
  | cons q qs ih =>
    cases qs with
    | nil => simp [joinParts]
    | cons r rs =>
      rw [show joinParts (q :: r :: rs) = q ++ "\n\n" ++ joinParts (r :: rs) from rfl]
      rw [hasContent_append, hasContent_append, ih]
      simp [show hasContent "\n\n" = false from rfl]

theorem filter_hasContent_eq_nil {l : List String}
    (h : ∀ p ∈ l, hasContent p = false) : l.filter hasContent = [] := by
  induction l with
  | nil => rfl
  | cons q qs ih =>
    rw [List.filter_cons, h q (List.mem_cons_self q qs)]
    exact ih fun p hp => h p (List.mem_cons_of_mem q hp)

/-- If every OCR pass on the listed pages succeeds, the fallback loop
aborts nowhere and releases every page's temporary image, in order. -/
theorem ocrFallback_total (ocr : Nat → Option (String × List Int)) :
    ∀ idxs : List Nat, (∀ i ∈ idxs, (ocr i).isSome = true) →
      (ocrFallback ocr idxs).aborted = none ∧ (ocrFallback ocr idxs).released = idxs
  | [], _ => ⟨rfl, rfl⟩
  | i :: rest, h => by
    obtain ⟨v, hv⟩ := Option.isSome_iff_exists.mp (h i (List.mem_cons_self i rest))
    have ih := ocrFallback_total ocr rest fun j hj => h j (List.mem_cons_of_mem i hj)
    simp only [ocrFallback, hv, extract_text_from_image, Option.map_some']
    split
    · exact ⟨ih.1, by rw [ih.2]⟩
    · exact ⟨ih.1, by rw [ih.2]⟩

/-- The fallback loop only consults the OCR oracle on the listed pages. -/
theorem ocrFallback_congr (ocr ocr' : Nat → Option (String × List Int)) :
    ∀ idxs : List Nat, (∀ i ∈ idxs, ocr' i = ocr i) →
      ocrFallback ocr' idxs = ocrFallback ocr idxs
  | [], _ => rfl
  | i :: rest, h => by
    have ih := ocrFallback_congr ocr ocr' rest fun j hj => h j (List.mem_cons_of_mem i hj)
    simp only [ocrFallback, h i (List.mem_cons_self i rest), ih]

/-- Prefix, no-abort and abort-last facts about the fallback release log. -/
theorem ocrFallback_released_spec (ocr : Nat → Option (String × List Int)) :
    ∀ idxs : List Nat,
      (ocrFallback ocr idxs).released <+: idxs
      ∧ ((ocrFallback ocr idxs).aborted = none → (ocrFallback ocr idxs).released = idxs)
      ∧ (∀ i, (ocrFallback ocr idxs).aborted = some i →
          (ocrFallback ocr idxs).released.getLast? = some i)
  | [] => ⟨⟨[], rfl⟩, fun _ => rfl, fun i h => by cases h⟩
  | i :: rest => by
    have ih := ocrFallback_released_spec ocr rest
    cases hE : extract_text_from_image (ocr i) with
    | none =>
      refine ⟨⟨rest, ?_⟩, fun hab => ?_, fun j hj => ?_⟩ <;>
        simp_all [ocrFallback, hE]
    | some res =>
      simp only [ocrFallback, hE]
      split
      · obtain ⟨t, ht⟩ := ih.1
        exact ⟨⟨t, by rw [List.cons_append, ht]⟩,
          fun hab => by rw [ih.2.1 hab],
          fun j hj => by
            have hl := ih.2.2 j hj
            cases hrel : (ocrFallback ocr rest).released with
            | nil => rw [hrel] at hl; simp at hl
            | cons a as =>
              rw [hrel] at hl
              show (i :: a :: as).getLast? = some j
              rw [List.getLast?_cons_cons]
              exact hl⟩
      · obtain ⟨t, ht⟩ := ih.1
        exact ⟨⟨t, by rw [List.cons_append, ht]⟩,
          fun hab => by rw [ih.2.1 hab],
          fun j hj => by
            have hl := ih.2.2 j hj
            cases hrel : (ocrFallback ocr rest).released with
            | nil => rw [hrel] at hl; simp at hl
            | cons a as =>
              rw [hrel] at hl
              show (i :: a :: as).getLast? = some j
              rw [List.getLast?_cons_cons]
              exact hl⟩

/-! ## Claim theorems -/

/-- C1: the claim says that on
`"SUBTOTAL: $45.50\nTAX: $3.64\nTOTAL: $49.14"` the extracted total is
49.14 because the TOTAL rule outranks the SUBTOTAL rule.  The TOTAL rule
does run first, but `re.search` finds its leftmost occurrence, which is the
`TOTAL: $45.50` substring inside `SUBTOTAL: $45.50`, so the code stores
45.50 — contradicting the repository's own test
`test_extract_total_amount_with_dollar_sign`, which asserts 49.14. -/
theorem c1_total_takes_subtotal_amount :
    (extract_structured_fields "SUBTOTAL: $45.50\nTAX: $3.64\nTOTAL: $49.14").total
        = some (mkRat 4550 100)
      ∧ mkRat 4550 100 ≠ mkRat 4914 100 := by
  exact ⟨by decide, by decide⟩

/-- C4: the claim (and the repository test `test_extract_invoice_number`)
says `"INVOICE #INV-2024-001"` yields invoice_number `"INV-2024-001"`; the
capture (`\w+`, optional dash or slash, `\w*`) admits at most one internal
separator, so the code stores the truncated `"INV-2024"`. -/
theorem c4_invoice_number_truncated :
    (extract_structured_fields "INVOICE #INV-2024-001").invoice_number = some "INV-2024"
      ∧ "INV-2024" ≠ "INV-2024-001" := by
  exact ⟨by decide, by decide⟩

/-- C9: in the image pipeline, the aggregate confidence is the arithmetic
mean of the token confidences strictly greater than zero, and 0 when no
confidence is strictly positive. -/
theorem c9_confidence_is_mean_of_positives (confs : List Int) :
    (∀ text, (extract_text_from_image (some (text, confs))).map (fun r => r.2.1)
        = some (avgConfidence confs))
  ∧ (confs.filter (fun c => 0 < c) ≠ [] →
      avgConfidence confs
        = ((confs.filter (fun c => 0 < c)).sum : ℚ)
            / ((confs.filter (fun c => 0 < c)).length : ℚ))
  ∧ ((∀ c ∈ confs, ¬ (0 < c)) → avgConfidence confs = 0) := by
  refine ⟨fun text => rfl, fun h => ?_, fun h => ?_⟩
  · rw [avgConfidence, if_neg (by simpa [List.isEmpty_iff] using h)]
  · rw [avgConfidence, if_pos]
    simp only [List.isEmpty_iff, List.filter_eq_nil_iff]
    intro c hc
    simpa using h c hc

/-- Witness for C9 at concrete confidence lists. -/
theorem c9_confidence_is_mean_of_positives_witness :
    avgConfidence [(-1 : Int), 0, 50, 90]
        = (([(-1 : Int), 0, 50, 90].filter (fun c => 0 < c)).sum : ℚ)
            / (([(-1 : Int), 0, 50, 90].filter (fun c => 0 < c)).length : ℚ)
      ∧ avgConfidence [(-5 : Int), 0] = 0 :=
  ⟨(c9_confidence_is_mean_of_positives [(-1 : Int), 0, 50, 90]).2.1 (by decide),
   (c9_confidence_is_mean_of_positives [(-5 : Int), 0]).2.2 (by decide)⟩

/-- C10: whenever the `POST /ocr` handler returns a 200 body, its
`success` field is `true`; failures are signalled only through HTTP error
statuses. -/
theorem c10_success_always_true (maxSize : Nat) (u : Upload) (pages : List String)
    (ocr : Nat → Option (String × List Int)) (img : Option (String × List Int))
    (resp : OCRResponse)
    (h : (extract_text maxSize u pages ocr img).2 = Except.ok resp) :
    resp.success = true := by
  unfold extract_text at h
  by_cases h1 : u.declaredSize.getD 0 > maxSize
  · rw [if_pos h1] at h; cases h
  · rw [if_neg h1] at h
    by_cases h2 : u.contentType ∈ ALLOWED_FILE_TYPES
    · rw [if_neg (not_not_intro h2)] at h
      by_cases h3 : u.contentSize > maxSize
      · rw [if_pos h3] at h; cases h
      · rw [if_neg h3] at h
        by_cases hpdf : u.contentType = "application/pdf"
        · rw [if_pos hpdf] at h
          cases hm : extract_text_from_pdf ocr pages with
          | none => rw [hm] at h; simp at h
          | some r =>
            rw [hm] at h
            simp only [Option.map_some'] at h
            cases h; rfl
        · rw [if_neg hpdf] at h
          cases hm : img with
          | none => rw [hm] at h; simp [extract_text_from_image] at h
          | some v =>
            rw [hm] at h
            simp only [extract_text_from_image, Option.map_some'] at h
            cases h; rfl
    · rw [if_pos h2] at h; cases h

/-- Witness for C10: a concrete successful image upload. -/
theorem c10_success_always_true_witness :
    ∃ resp, (extract_text 1000 ⟨"image/png", some 5, 5⟩ [] (fun _ => none)
        (some ("HI", [90]))).2 = Except.ok resp ∧ resp.success = true := by
  refine ⟨_, rfl, ?_⟩
  exact c10_success_always_true 1000 ⟨"image/png", some 5, 5⟩ [] (fun _ => none)
    (some ("HI", [90])) _ rfl

/-- C8: validation failures (unsupported MIME type → 400, declared or
actual size over the limit → 413) are detected before any temp-storage
write or engine call, and the size is checked twice: once from the declared
hint, once after the payload is read. -/
theorem c8_validation_before_work (maxSize : Nat) (u : Upload) (pages : List String)
    (ocr : Nat → Option (String × List Int)) (img : Option (String × List Int)) :
    (((extract_text maxSize u pages ocr img).2 = Except.error 400
        ∨ (extract_text maxSize u pages ocr img).2 = Except.error 413) →
      Ev.writeTemp ∉ (extract_text maxSize u pages ocr img).1
        ∧ Ev.engineCall ∉ (extract_text maxSize u pages ocr img).1)
  ∧ (∀ s, u.declaredSize = some s → maxSize < s →
      (extract_text maxSize u pages ocr img).2 = Except.error 413
        ∧ (extract_text maxSize u pages ocr img).1 = [])
  ∧ (u.declaredSize.getD 0 ≤ maxSize → u.contentType ∈ ALLOWED_FILE_TYPES →
      maxSize < u.contentSize →
      (extract_text maxSize u pages ocr img).2 = Except.error 413
        ∧ Ev.readPayload ∈ (extract_text maxSize u pages ocr img).1) := by
  by_cases h1 : u.declaredSize.getD 0 > maxSize
  · have he : extract_text maxSize u pages ocr img = ([], Except.error 413) := by
      unfold extract_text; rw [if_pos h1]
    rw [he]
    exact ⟨fun _ => ⟨by simp, by simp⟩, fun s hs hlt => ⟨rfl, rfl⟩,
      fun hle _ _ => absurd h1 (not_lt.mpr hle)⟩
  · by_cases h2 : u.contentType ∈ ALLOWED_FILE_TYPES
    · by_cases h3 : u.contentSize > maxSize
      · have he : extract_text maxSize u pages ocr img
            = ([Ev.createTemp, Ev.readPayload], Except.error 413) := by
          unfold extract_text; rw [if_neg h1, if_neg (not_not_intro h2), if_pos h3]
        rw [he]
        exact ⟨fun _ => ⟨by simp, by simp⟩,
          fun s hs hlt => absurd hlt (by rw [hs] at h1; simpa using h1),
          fun _ _ _ => ⟨rfl, by simp⟩⟩
      · have he2 : (extract_text maxSize u pages ocr img).2 ≠ Except.error 400
            ∧ (extract_text maxSize u pages ocr img).2 ≠ Except.error 413 := by
          unfold extract_text
          rw [if_neg h1, if_neg (not_not_intro h2), if_neg h3]
          by_cases hpdf : u.contentType = "application/pdf"
          · rw [if_pos hpdf]
            cases extract_text_from_pdf ocr pages with
            | none => exact ⟨by simp, by simp⟩
            | some r => exact ⟨by simp, by simp⟩
          · rw [if_neg hpdf]
            cases img with
            | none => exact ⟨by simp [extract_text_from_image], by simp [extract_text_from_image]⟩
            | some v => exact ⟨by simp [extract_text_from_image], by simp [extract_text_from_image]⟩
        refine ⟨fun hres => ?_, fun s hs hlt => absurd hlt (by rw [hs] at h1; simpa using h1),
          fun _ _ hlt => absurd hlt h3⟩
        rcases hres with h400 | h413
        · exact absurd h400 he2.1
        · exact absurd h413 he2.2
    · have he : extract_text maxSize u pages ocr img = ([], Except.error 400) := by
        unfold extract_text; rw [if_neg h1, if_pos h2]
      rw [he]
      exact ⟨fun _ => ⟨by simp, by simp⟩,
        fun s hs hlt => absurd hlt (by rw [hs] at h1; simpa using h1),
        fun _ hmem _ => absurd hmem h2⟩

/-- Witness for C8 at concrete uploads: an oversized declared hint, an
unsupported type, and an oversized actual payload. -/
theorem c8_validation_before_work_witness :
    ((extract_text 10 ⟨"image/png", some 99, 5⟩ [] (fun _ => none) none).2
        = Except.error 413
      ∧ (extract_text 10 ⟨"image/png", some 99, 5⟩ [] (fun _ => none) none).1 = [])
    ∧ ((extract_text 10 ⟨"text/plain", none, 5⟩ [] (fun _ => none) none).2
        = Except.error 400
      ∧ Ev.writeTemp ∉ (extract_text 10 ⟨"text/plain", none, 5⟩ [] (fun _ => none) none).1)
    ∧ ((extract_text 10 ⟨"image/png", some 5, 99⟩ [] (fun _ => none) none).2
        = Except.error 413
      ∧ Ev.readPayload ∈ (extract_text 10 ⟨"image/png", some 5, 99⟩ [] (fun _ => none) none).1) :=
  ⟨(c8_validation_before_work 10 ⟨"image/png", some 99, 5⟩ [] (fun _ => none) none).2.1
      99 rfl (by decide),
   ⟨rfl,
    ((c8_validation_before_work 10 ⟨"text/plain", none, 5⟩ [] (fun _ => none) none).1
      (Or.inl rfl)).1⟩,
   (c8_validation_before_work 10 ⟨"image/png", some 5, 99⟩ [] (fun _ => none) none).2.2
      (by decide) (by decide) (by decide)⟩

/-- C2: a PDF in which some page has non-empty digital text is handled
entirely digitally: the result text is the blank-line join of the
non-empty page texts in page order, confidence is 1.0, `used_ocr` is
false, and the OCR oracle is never consulted (the result is the same for
any oracle). -/
theorem c2_digital_branch (pages : List String)
    (ocr ocr' : Nat → Option (String × List Int))
    (h : ∃ p ∈ pages, hasContent p = true) :
    (extract_text_from_pdf ocr pages).map (fun r => (r.1, r.2.1, r.2.2.used_ocr))
        = some (joinParts (pages.filter hasContent), 1, false)
      ∧ extract_text_from_pdf ocr' pages = extract_text_from_pdf ocr pages := by
  obtain ⟨p, hp, hc⟩ := h
  have hfull : hasContent (joinParts (pages.filter hasContent)) = true := by
    rw [hasContent_joinParts]
    exact List.any_eq_true.mpr ⟨p, List.mem_filter.mpr ⟨hp, hc⟩, hc⟩
  constructor
  · simp only [extract_text_from_pdf, hfull, if_true]
    rfl
  · simp only [extract_text_from_pdf, hfull, if_true]

/-- Witness for C2: a two-page PDF whose second page has digital text,
against two different OCR oracles. -/
theorem c2_digital_branch_witness :
    (extract_text_from_pdf (fun _ => none) ["", "HELLO WORLD"]).map
        (fun r => (r.1, r.2.1, r.2.2.used_ocr))
      = some (joinParts (["", "HELLO WORLD"].filter hasContent), 1, false)
    ∧ extract_text_from_pdf (fun _ => some ("X", [1])) ["", "HELLO WORLD"]
        = extract_text_from_pdf (fun _ => none) ["", "HELLO WORLD"] :=
  c2_digital_branch ["", "HELLO WORLD"] (fun _ => none) (fun _ => some ("X", [1]))
    ⟨"HELLO WORLD", by decide, by decide⟩

/-- C3: a PDF with no digital text on any page goes through OCR fallback:
exactly the first `min(total_pages, 5)` pages are rasterised and OCR'd in
order, the confidence is 0.8, `used_ocr` is true, and `total_pages` in the
metadata is the full page count; the result depends only on the OCR
outcomes of those pages. -/
theorem c3_ocr_fallback_branch (pages : List String)
    (ocr ocr' : Nat → Option (String × List Int))
    (hempty : ∀ p ∈ pages, hasContent p = false)
    (hocr : ∀ i ∈ List.range (min pages.length 5), (ocr i).isSome = true)
    (hagree : ∀ i ∈ List.range (min pages.length 5), ocr' i = ocr i) :
    (ocrFallback ocr (List.range (min pages.length 5))).released
        = List.range (min pages.length 5)
      ∧ (extract_text_from_pdf ocr pages).map
          (fun r => (r.2.1, r.2.2.used_ocr, r.2.2.total_pages))
        = some (4/5, true, pages.length)
      ∧ extract_text_from_pdf ocr' pages = extract_text_from_pdf ocr pages := by
  have hfil := filter_hasContent_eq_nil hempty
  have hfull : hasContent (joinParts (pages.filter hasContent)) = false := by
    rw [hfil]; rfl
  obtain ⟨hab, hrel⟩ := ocrFallback_total ocr _ hocr
  refine ⟨hrel, ?_, ?_⟩
  · simp only [extract_text_from_pdf, hfull, Bool.false_eq_true, if_false, hab]
    rfl
  · simp only [extract_text_from_pdf, hfull, Bool.false_eq_true, if_false,
      ocrFallback_congr ocr ocr' _ hagree]

/-- Witness for C3: an eight-page scanned PDF; only pages 0-4 are OCR'd
and `total_pages` remains 8. -/
theorem c3_ocr_fallback_branch_witness :
    (ocrFallback (fun _ => some ("SCANNED PAGE", [80]))
        (List.range (min (["", "", "", "", "", "", "", ""] : List String).length 5))).released
      = List.range (min (["", "", "", "", "", "", "", ""] : List String).length 5)
    ∧ (extract_text_from_pdf (fun _ => some ("SCANNED PAGE", [80]))
          ["", "", "", "", "", "", "", ""]).map
        (fun r => (r.2.1, r.2.2.used_ocr, r.2.2.total_pages))
      = some (4/5, true, (["", "", "", "", "", "", "", ""] : List String).length)
    ∧ extract_text_from_pdf (fun _ => some ("SCANNED PAGE", [80]))
          ["", "", "", "", "", "", "", ""]
      = extract_text_from_pdf (fun _ => some ("SCANNED PAGE", [80]))
          ["", "", "", "", "", "", "", ""] :=
  c3_ocr_fallback_branch ["", "", "", "", "", "", "", ""]
    (fun _ => some ("SCANNED PAGE", [80])) (fun _ => some ("SCANNED PAGE", [80]))
    (by decide) (by decide) (fun _ _ => rfl)

/-- C6 counterexample: for a successfully processed one-page digital PDF
the response metadata's `word_count` is absent (`None`), even though the
final text has two words — the PDF metadata dict has no `word_count` key,
so the claim that `word_count` is present for every successful upload
fails. -/
theorem c6_word_count_missing_for_pdf :
    ((extract_text 1000 ⟨"application/pdf", some 11, 11⟩ ["HELLO WORLD"]
        (fun _ => none) none).2.toOption.map
          (fun r => (r.metadata.word_count, countTokens r.extracted_text)))
      = some (none, 2) := by
  decide

/-- C6 amended: for image uploads the response `word_count` is present and
equals the whitespace token count of the final text; for PDF uploads it is
absent, because the PDF pipeline's metadata has no `word_count` entry. -/
theorem c6_word_count_by_path (maxSize : Nat) (u : Upload) (pages : List String)
    (ocr : Nat → Option (String × List Int)) (img : Option (String × List Int))
    (resp : OCRResponse)
    (h : (extract_text maxSize u pages ocr img).2 = Except.ok resp) :
    (u.contentType ≠ "application/pdf" →
        resp.metadata.word_count = some (countTokens resp.extracted_text))
  ∧ (u.contentType = "application/pdf" → resp.metadata.word_count = none) := by
  unfold extract_text at h
  by_cases h1 : u.declaredSize.getD 0 > maxSize
  · rw [if_pos h1] at h; cases h
  · rw [if_neg h1] at h
    by_cases h2 : u.contentType ∈ ALLOWED_FILE_TYPES
    · rw [if_neg (not_not_intro h2)] at h
      by_cases h3 : u.contentSize > maxSize
      · rw [if_pos h3] at h; cases h
      · rw [if_neg h3] at h
        by_cases hpdf : u.contentType = "application/pdf"
        · rw [if_pos hpdf] at h
          cases hm : extract_text_from_pdf ocr pages with
          | none => rw [hm] at h; cases h
          | some r =>
            rw [hm] at h
            simp only [Option.map_some'] at h
            cases h
            exact ⟨fun hne => absurd hpdf hne, fun _ => rfl⟩
        · rw [if_neg hpdf] at h
          cases hm : img with
          | none => rw [hm] at h; cases h
          | some v =>
            rw [hm] at h
            simp only [extract_text_from_image, Option.map_some'] at h
            cases h
            exact ⟨fun _ => rfl, fun hp => absurd hp hpdf⟩
    · rw [if_pos h2] at h; cases h

/-- Witness for C6 amended: a concrete successful image upload whose
`word_count` equals the token count of its text. -/
theorem c6_word_count_by_path_witness :
    ∃ resp, (extract_text 1000 ⟨"image/png", some 5, 5⟩ [] (fun _ => none)
        (some ("TOTAL: $3.00", [70]))).2 = Except.ok resp
      ∧ resp.metadata.word_count = some (countTokens resp.extracted_text) := by
  refine ⟨_, rfl, ?_⟩
  exact (c6_word_count_by_path 1000 ⟨"image/png", some 5, 5⟩ [] (fun _ => none)
    (some ("TOTAL: $3.00", [70])) _ rfl).1 (by decide)

/-- C7 counterexample: with an OCR oracle that fails on every page, a
two-page scanned PDF releases page 0's temporary image (the `finally`
block runs) but then the exception propagates: page 1 is never processed
and the whole extraction fails — refuting the claim that one page's OCR
failure does not abort the remaining pages. -/
theorem c7_failure_aborts_remaining_pages :
    (ocrFallback (fun _ => none) [0, 1]).released = [0]
      ∧ (ocrFallback (fun _ => none) [0, 1]).aborted = some 0
      ∧ extract_text_from_pdf (fun _ => none) ["", ""] = none := by
  exact ⟨rfl, rfl, by decide⟩

/-- C7 amended: every processed page's temporary image is released
immediately after its OCR pass, on success and on failure (the release log
is a prefix of the page list, the whole list when no pass fails, and ends
with the failing page otherwise); but a failing pass aborts the remaining
pages, and the whole PDF extraction then fails. -/
theorem c7_cleanup_and_abort (ocr : Nat → Option (String × List Int))
    (idxs : List Nat) (pages : List String) :
    (ocrFallback ocr idxs).released <+: idxs
  ∧ ((ocrFallback ocr idxs).aborted = none → (ocrFallback ocr idxs).released = idxs)
  ∧ (∀ i, (ocrFallback ocr idxs).aborted = some i →
      (ocrFallback ocr idxs).released.getLast? = some i)
  ∧ ((∀ p ∈ pages, hasContent p = false) →
      (ocrFallback ocr (List.range (min pages.length 5))).aborted.isSome = true →
      extract_text_from_pdf ocr pages = none) := by
  refine ⟨(ocrFallback_released_spec ocr idxs).1,
    (ocrFallback_released_spec ocr idxs).2.1,
    (ocrFallback_released_spec ocr idxs).2.2, fun hempty hab => ?_⟩
  have hfull : hasContent (joinParts (pages.filter hasContent)) = false := by
    rw [filter_hasContent_eq_nil hempty]; rfl
  obtain ⟨j, hj⟩ := Option.isSome_iff_exists.mp hab
  simp only [extract_text_from_pdf, hfull, Bool.false_eq_true, if_false, hj]

/-- Witness for C7 amended at a concrete failing oracle and PDF. -/
theorem c7_cleanup_and_abort_witness :
    (ocrFallback (fun i => if i = 0 then some ("P", [9]) else none) [0, 1, 2]).released
        <+: [0, 1, 2]
      ∧ (ocrFallback (fun i => if i = 0 then some ("P", [9]) else none)
          [0, 1, 2]).released.getLast? = some 1
      ∧ extract_text_from_pdf (fun i => if i = 0 then some ("P", [9]) else none)
          ["", "", ""] = none := by
  refine ⟨(c7_cleanup_and_abort (fun i => if i = 0 then some ("P", [9]) else none)
      [0, 1, 2] []).1, ?_, ?_⟩
  · exact (c7_cleanup_and_abort (fun i => if i = 0 then some ("P", [9]) else none)
      [0, 1, 2] []).2.2.1 1 (by decide)
  · exact (c7_cleanup_and_abort (fun i => if i = 0 then some ("P", [9]) else none)
      [] ["", "", ""]).2.2.2 (by decide) (by decide)

/-! ## Capture-provenance lemmas for the regex engine (for C5) -/

/-- The remaining input of any match is a suffix of the input. -/
theorem mtch_rest_suffix (f : Nat) (r : RE) (cs : List Char) :
    ∀ pr ∈ mtch f r cs, pr.2 <:+ cs := by
  induction f generalizing r cs with
  | zero => intro pr h; simp [mtch] at h
  | succ f ih =>
    intro pr h
    cases r with
    | lit s =>
      simp only [mtch] at h
      split at h
      · simp only [List.mem_singleton] at h
        subst h
        exact List.drop_suffix _ _
      · simp at h
    | cls p =>
      cases cs with
      | nil => simp [mtch] at h
      | cons c0 cs' =>
        simp only [mtch] at h
        split at h
        · simp only [List.mem_singleton] at h
          subst h
          exact List.suffix_cons c0 cs'
        · simp at h
    | seq a b =>
      simp only [mtch, List.mem_flatMap, List.mem_map] at h
      obtain ⟨pr1, h1, qr, hq, rfl⟩ := h
      exact (ih b pr1.2 qr hq).trans (ih a cs pr1 h1)
    | alt a b =>
      simp only [mtch, List.mem_append] at h
      rcases h with h | h
      · exact ih a cs pr h
      · exact ih b cs pr h
    | star a =>
      simp only [mtch, List.mem_append] at h
      rcases h with h | h
      · simp only [List.mem_flatMap] at h
        obtain ⟨pr1, h1, hin⟩ := h
        split at hin
        · simp only [List.mem_map] at hin
          obtain ⟨qr, hq, rfl⟩ := hin
          exact (ih (RE.star a) pr1.2 qr hq).trans (ih a cs pr1 h1)
        · simp at hin
      · simp only [List.mem_singleton] at h
        subst h
        exact List.suffix_refl cs
    | lazy a =>
      simp only [mtch, List.mem_cons] at h
      rcases h with rfl | h
      · exact List.suffix_refl cs
      · simp only [List.mem_flatMap] at h
        obtain ⟨pr1, h1, hin⟩ := h
        split at hin
        · simp only [List.mem_map] at hin
          obtain ⟨qr, hq, rfl⟩ := hin
          exact (ih (RE.lazy a) pr1.2 qr hq).trans (ih a cs pr1 h1)
        · simp at hin
    | grp a =>
      simp only [mtch, List.mem_map] at h
      obtain ⟨qr, hq, rfl⟩ := h
      exact ih a cs qr hq

/-- Every character of a capture group comes from the input string. -/
theorem mtch_capture_mem (f : Nat) (r : RE) (cs : List Char) :
    ∀ pr ∈ mtch f r cs, ∀ c ∈ pr.1.getD [], c ∈ cs := by
  induction f generalizing r cs with
  | zero => intro pr h; simp [mtch] at h
  | succ f ih =>
    intro pr h
    cases r with
    | lit s =>
      simp only [mtch] at h
      split at h
      · simp only [List.mem_singleton] at h
        subst h
        intro c hc
        simp at hc
      · simp at h
    | cls p =>
      cases cs with
      | nil => simp [mtch] at h
      | cons c0 cs' =>
        simp only [mtch] at h
        split at h
        · simp only [List.mem_singleton] at h
          subst h
          intro c hc
          simp at hc
        · simp at h
    | seq a b =>
      simp only [mtch, List.mem_flatMap, List.mem_map] at h
      obtain ⟨pr1, h1, qr, hq, rfl⟩ := h
      intro c hc
      cases hm : pr1.1 with
      | some v =>
        have hv := ih a cs pr1 h1 c
        rw [hm] at hv hc
        simp only [Option.getD_some] at hv
        exact hv (by simpa [mergeC] using hc)
      | none =>
        rw [hm] at hc
        have hcq : c ∈ qr.1.getD [] := by simpa [mergeC] using hc
        exact (mtch_rest_suffix f a cs pr1 h1).subset (ih b pr1.2 qr hq c hcq)
    | alt a b =>
      simp only [mtch, List.mem_append] at h
      rcases h with h | h
      · exact ih a cs pr h
      · exact ih b cs pr h
    | star a =>
      simp only [mtch, List.mem_append] at h
      rcases h with h | h
      · simp only [List.mem_flatMap] at h
        obtain ⟨pr1, h1, hin⟩ := h
        split at hin
        · simp only [List.mem_map] at hin
          obtain ⟨qr, hq, rfl⟩ := hin
          intro c hc
          cases hm : pr1.1 with
          | some v =>
            have hv := ih a cs pr1 h1 c
            rw [hm] at hv hc
            simp only [Option.getD_some] at hv
            exact hv (by simpa [mergeC] using hc)
          | none =>
            rw [hm] at hc
            have hcq : c ∈ qr.1.getD [] := by simpa [mergeC] using hc
            exact (mtch_rest_suffix f a cs pr1 h1).subset
              (ih (RE.star a) pr1.2 qr hq c hcq)
        · simp at hin
      · simp only [List.mem_singleton] at h
        subst h
        intro c hc
        simp at hc
    | lazy a =>
      simp only [mtch, List.mem_cons] at h
      rcases h with rfl | h
      · intro c hc
        simp at hc
      · simp only [List.mem_flatMap] at h
        obtain ⟨pr1, h1, hin⟩ := h
        split at hin
        · simp only [List.mem_map] at hin
          obtain ⟨qr, hq, rfl⟩ := hin
          intro c hc
          cases hm : pr1.1 with
          | some v =>
            have hv := ih a cs pr1 h1 c
            rw [hm] at hv hc
            simp only [Option.getD_some] at hv
            exact hv (by simpa [mergeC] using hc)
          | none =>
            rw [hm] at hc
            have hcq : c ∈ qr.1.getD [] := by simpa [mergeC] using hc
            exact (mtch_rest_suffix f a cs pr1 h1).subset
              (ih (RE.lazy a) pr1.2 qr hq c hcq)
        · simp at hin
    | grp a =>
      simp only [mtch, List.mem_map] at h
      obtain ⟨qr, hq, rfl⟩ := h
      intro c hc
      have hc2 : c ∈ cs.take (cs.length - qr.2.length) := by simpa using hc
      exact List.mem_of_mem_take hc2

/-- Lift of the capture lemma to `tryAt`. -/
theorem tryAt_capture_mem (r : RE) (cs cap : List Char)
    (h : tryAt r cs = some cap) : ∀ c ∈ cap, c ∈ cs := by
  unfold tryAt at h
  cases hh : (mtch ((r.size + 1) * (cs.length + 2)) r cs).head? with
  | none => rw [hh] at h; cases h
  | some pr =>
    rw [hh] at h
    simp only [Option.map_some'] at h
    cases h
    exact mtch_capture_mem _ r cs pr (List.mem_of_mem_head? hh)

/-- Lift of the capture lemma to `search`. -/
theorem search_capture_mem (r : RE) :
    ∀ (cs cap : List Char), search r cs = some cap → ∀ c ∈ cap, c ∈ cs
  | [], cap, h => tryAt_capture_mem r [] cap h
  | c0 :: cs, cap, h => by
    unfold search at h
    cases ht : tryAt r (c0 :: cs) with
    | some cap2 =>
      rw [ht] at h
      cases h
      exact tryAt_capture_mem r (c0 :: cs) _ ht
    | none =>
      rw [ht] at h
      exact fun c hc => List.mem_cons_of_mem c0 (search_capture_mem r cs cap h c hc)

/-- Lift of the capture lemma to `searchA`. -/
theorem searchA_capture_mem (p : Bool × RE) (cs cap : List Char)
    (h : searchA p cs = some cap) : ∀ c ∈ cap, c ∈ cs := by
  obtain ⟨anchored, r⟩ := p
  cases anchored
  · exact search_capture_mem r cs cap h
  · exact tryAt_capture_mem r cs cap h

/-- First-match inversion for the rule-scanning loop. -/
theorem firstSome_eq_some {α β : Type} {f : α → Option β} {b : β} :
    ∀ {l : List α}, firstSome f l = some b → ∃ a ∈ l, f a = some b
  | [], h => by cases h
  | a :: as, h => by
    unfold firstSome at h
    cases hf : f a with
    | some b2 =>
      rw [hf] at h
      cases h
      exact ⟨a, List.mem_cons_self a as, hf⟩
    | none =>
      rw [hf] at h
      obtain ⟨a2, ha2, hfa2⟩ := firstSome_eq_some h
      exact ⟨a2, List.mem_cons_of_mem a ha2, hfa2⟩

/-- Pieces of `split('\n')` only contain characters of the original text. -/
theorem splitNl_chars : ∀ (cs : List Char), ∀ l ∈ splitNl cs, ∀ c ∈ l, c ∈ cs
  | [], l, hl, c, hc => by
    simp only [splitNl, List.mem_singleton] at hl
    subst hl
    cases hc
  | c0 :: rest, l, hl, c, hc => by
    simp only [splitNl] at hl
    split at hl
    · rcases List.mem_cons.mp hl with rfl | hl2
      · cases hc
      · exact List.mem_cons_of_mem c0 (splitNl_chars rest l hl2 c hc)
    · cases hsp : splitNl rest with
      | nil =>
        rw [hsp] at hl
        simp only [List.mem_singleton] at hl
        subst hl
        rcases List.mem_singleton.mp hc with rfl
        exact List.mem_cons_self c rest
      | cons l1 ls =>
        rw [hsp] at hl
        rcases List.mem_cons.mp hl with rfl | hl2
        · rcases List.mem_cons.mp hc with rfl | hc2
          · exact List.mem_cons_self c rest
          · exact List.mem_cons_of_mem c0
              (splitNl_chars rest l1 (hsp ▸ List.mem_cons_self l1 ls) c hc2)
        · exact List.mem_cons_of_mem c0
            (splitNl_chars rest l (hsp ▸ List.mem_cons_of_mem l1 hl2) c hc)

/-- Stripping only removes characters. -/
theorem pyStrip_subset (cs : List Char) : ∀ c ∈ pyStrip cs, c ∈ cs := by
  intro c hc
  unfold pyStrip at hc
  rw [List.mem_reverse] at hc
  have h1 := (List.dropWhile_sublist _).subset hc
  rw [List.mem_reverse] at h1
  exact (List.dropWhile_sublist _).subset h1

/-- Characters of the stripped non-empty lines come from the text. -/
theorem stripLines_chars (cs : List Char) : ∀ l ∈ stripLines cs, ∀ c ∈ l, c ∈ cs := by
  intro l hl c hc
  unfold stripLines at hl
  have hl2 := List.mem_of_mem_filter hl
  obtain ⟨l0, hl0, rfl⟩ := List.mem_map.mp hl2
  exact splitNl_chars cs l0 hl0 c (pyStrip_subset l0 c hc)

/-- A stored date value only contains characters of the uppercased text. -/
theorem extractDate_chars (ucs : List Char) (s : String)
    (h : extractDate ucs = some s) : ∀ c ∈ s.data, c ∈ ucs := by
  unfold extractDate at h
  obtain ⟨cap, hcap, rfl⟩ := Option.map_eq_some'.mp h
  obtain ⟨p, hp, hs⟩ := firstSome_eq_some hcap
  exact search_capture_mem p ucs cap hs

/-- A stored invoice number only contains characters of the uppercased text. -/
theorem extractInvoice_chars (ucs : List Char) (s : String)
    (h : extractInvoice ucs = some s) : ∀ c ∈ s.data, c ∈ ucs := by
  unfold extractInvoice at h
  obtain ⟨p, hp, hs⟩ := firstSome_eq_some h
  obtain ⟨cap, hcap, hif⟩ := Option.bind_eq_some.mp hs
  split at hif
  · cases hif
    exact search_capture_mem p ucs cap hcap
  · cases hif

/-- A vendor value extracted from one line only contains characters of that
(uppercased) line. -/
theorem vendorFromLine_chars (lineU : List Char) (s : String)
    (h : vendorFromLine lineU = some s) : ∀ c ∈ s.data, c ∈ lineU := by
  unfold vendorFromLine at h
  obtain ⟨p, hp, hs⟩ := firstSome_eq_some h
  obtain ⟨cap, hcap, hif⟩ := Option.bind_eq_some.mp hs
  split at hif
  · cases hif
    intro c hc
    exact searchA_capture_mem p lineU cap hcap c (pyStrip_subset cap c hc)
  · cases hif

/-- A stored vendor value only contains uppercased characters of the text. -/
theorem extractVendor_chars (cs : List Char) (s : String)
    (h : extractVendor cs = some s) : ∀ c ∈ s.data, c ∈ pyUpperL cs := by
  unfold extractVendor at h
  obtain ⟨line, hline, hv⟩ := firstSome_eq_some h
  intro c hc
  have hcl : c ∈ pyUpperL line := vendorFromLine_chars (pyUpperL line) s hv c hc
  unfold pyUpperL at hcl ⊢
  obtain ⟨c0, hc0, rfl⟩ := List.mem_map.mp hcl
  exact List.mem_map.mpr
    ⟨c0, stripLines_chars cs line (List.mem_of_mem_take hline) c0 hc0, rfl⟩

/-- C5 counterexample: for the input `"Date: 15 Jan 2024"` the stored date
is `"15 JAN 2024"`, which does not occur in the input text at all — the
original casing of the matched substring `"15 Jan 2024"` is not preserved. -/
theorem c5_casing_counterexample :
    (extract_structured_fields "Date: 15 Jan 2024").date = some "15 JAN 2024"
      ∧ isSubL "15 JAN 2024".data "Date: 15 Jan 2024".data = false := by
  exact ⟨by decide, by decide⟩

/-- C5 amended: the date, invoice_number and vendor values are captured
from the uppercased text — every one of their characters is a character of
the uppercased input — so original casing is not preserved for them; only
the title field stores an original-cased (stripped) line of the input. -/
theorem c5_casing_amended (text : String) :
    (∀ s, (extract_structured_fields text).date = some s →
        ∀ c ∈ s.data, c ∈ pyUpperL text.data)
  ∧ (∀ s, (extract_structured_fields text).invoice_number = some s →
        ∀ c ∈ s.data, c ∈ pyUpperL text.data)
  ∧ (∀ s, (extract_structured_fields text).vendor = some s →
        ∀ c ∈ s.data, c ∈ pyUpperL text.data)
  ∧ (∀ s, (extract_structured_fields text).title = some s →
        ∃ l ∈ stripLines text.data, s = String.mk (pyStrip l)) := by
  refine ⟨fun s hs => extractDate_chars (pyUpperL text.data) s hs,
    fun s hs => extractInvoice_chars (pyUpperL text.data) s hs,
    fun s hs => extractVendor_chars text.data s hs,
    fun s hs => ?_⟩
  have hs' : extractTitle text.data = some s := hs
  unfold extractTitle at hs'
  cases hsp : stripLines text.data with
  | nil => rw [hsp] at hs'; cases hs'
  | cons l0 rest =>
    rw [hsp] at hs'
    simp only at hs'
    split at hs'
    · cases hs'
      exact ⟨l0, hsp ▸ List.mem_cons_self l0 rest, rfl⟩
    · cases rest with
      | nil => cases hs'
      | cons l1 rs =>
        simp only at hs'
        split at hs'
        · cases hs'
          exact ⟨l1, hsp ▸ List.mem_cons_of_mem l0 (List.mem_cons_self l1 rs), rfl⟩
        · cases hs'

/-- Witness for C5 amended at concrete inputs. -/
theorem c5_casing_amended_witness :
    (∀ c ∈ ("15 JAN 2024" : String).data, c ∈ pyUpperL ("Date: 15 Jan 2024" : String).data)
      ∧ ∃ l ∈ stripLines ("INVOICE\nAcme" : String).data,
          ("INVOICE" : String) = String.mk (pyStrip l) :=
  ⟨(c5_casing_amended "Date: 15 Jan 2024").1 "15 JAN 2024" (by decide),
   (c5_casing_amended "INVOICE\nAcme").2.2.2 "INVOICE" (by decide)⟩

end OCRService
